import Mathlib

/-!
Verification of the gencrawl Crawl Orchestration Engine.

Shallow embedding of the core components from `src/backend`:
state machine (`models/crawl_state.py`), crawl manager pause/resume
(`crawlers/manager.py`), iteration subsystem (`utils/iteration_manager.py`),
checkpoint subsystem (`utils/checkpoint.py`), discovery candidate selection
(`utils/discovery.py`) and the event bus (`events/event_bus.py`).

Modelling conventions:
* `datetime.utcnow()` is threaded as an explicit integer timestamp `now`;
  durations are integer differences.
* Python `None`-or-falsy optional fields become `Option` values.
* A method that may `raise` is embedded as a function returning the
  post-call object state together with an `Except` result, mirroring the
  exact statement order of the source (so partial mutation before a raise
  is preserved).
-/

namespace GenCrawl

/-! ## State machine (`src/backend/models/crawl_state.py`) -/

/-- Source `CrawlState` enum: the nine main crawler states. -/
inductive CrawlState where
  | queued
  | initializing
  | crawling
  | extracting
  | processing
  | completed
  | failed
  | paused
  | cancelled
deriving DecidableEq, Repr

/-- Source `CrawlSubstate` enum (substates of the three working states). -/
inductive CrawlSubstate where
  | discovering_urls
  | downloading_pages
  | downloading_documents
  | pdf_extraction
  | ocr
  | table_detection
  | metadata_extraction
  | quality_scoring
  | deduplication
  | nemo_curation
deriving DecidableEq, Repr

/-- Source `StateTransition` record (metadata dict omitted: no claim depends on it). -/
structure StateTransition where
  from_state : CrawlState
  to_state : CrawlState
  timestamp : Int
  duration_seconds : Option Int
deriving DecidableEq, Repr

/-- The fields of `CrawlStateData` that the state machine reads or writes
(config, progress and metrics are never touched by `transition`). -/
structure CrawlStateData where
  crawl_id : String
  current_state : CrawlState := .queued
  current_substate : Option CrawlSubstate := none
  created_at : Int
  started_at : Option Int := none
  completed_at : Option Int := none
  paused_at : Option Int := none
  state_history : List StateTransition := []
  error_count : Nat := 0
deriving DecidableEq, Repr

/-- Source `CrawlStateMachine.VALID_TRANSITIONS` as a function from state to its
list of allowed successor states (the Python dict literal, in order). -/
def VALID_TRANSITIONS : CrawlState → List CrawlState
  | .queued => [.initializing, .cancelled]
  | .initializing => [.crawling, .failed, .cancelled]
  | .crawling => [.extracting, .paused, .failed, .cancelled]
  | .extracting => [.processing, .paused, .failed, .cancelled]
  | .processing => [.completed, .paused, .failed, .cancelled]
  | .paused => [.crawling, .extracting, .processing, .cancelled]
  | .completed => []
  | .failed => []
  | .cancelled => []

/-- Source `ValueError` raised by `transition` for a disallowed transition
(the spec's `InvalidTransition` error). -/
inductive TransErr where
  | invalidTransition (from_state to_state : CrawlState)
deriving DecidableEq, Repr

/-- Source `CrawlStateMachine.can_transition`. -/
def can_transition (sd : CrawlStateData) (to_state : CrawlState) : Bool :=
  decide (to_state ∈ VALID_TRANSITIONS sd.current_state)

/-- Source `CrawlStateMachine.transition`, embedded as
`old state → target → now → (post-call state, raise-or-return)`.
The validity check precedes every mutation, exactly as in the source, so
the error branch returns the state unchanged. The appended record's
timestamp and the timestamp bookkeeping all use the single call-time
instant `now` (the source calls `datetime.utcnow()` afresh each time,
microseconds apart). -/
def transition (sd : CrawlStateData) (to_state : CrawlState) (now : Int) :
    CrawlStateData × Except TransErr Bool :=
  if ¬ can_transition sd to_state then
    (sd, .error (.invalidTransition sd.current_state to_state))
  else
    -- duration in previous state: delta to the last history entry, else None
    let duration : Option Int :=
      match sd.state_history.getLast? with
      | some last_transition => some (now - last_transition.timestamp)
      | none => none
    let t : StateTransition :=
      { from_state := sd.current_state
        to_state := to_state
        timestamp := now
        duration_seconds := duration }
    let sd1 := { sd with
      state_history := sd.state_history ++ [t]
      current_state := to_state }
    -- timestamp updates (the three branches are mutually exclusive)
    let sd2 :=
      if to_state = .initializing ∧ sd1.started_at = none then
        { sd1 with started_at := some now }
      else if to_state = .completed ∨ to_state = .failed ∨ to_state = .cancelled then
        { sd1 with completed_at := some now }
      else if to_state = .paused then
        { sd1 with paused_at := some now }
      else sd1
    (sd2, .ok true)

/-- Source `CrawlStateMachine.is_terminal_state`, on the underlying state value. -/
def is_terminal_state (s : CrawlState) : Bool :=
  decide (s ∈ [CrawlState.completed, CrawlState.failed, CrawlState.cancelled])

/-- Source `CrawlStateMachine.can_pause`. -/
def can_pause (s : CrawlState) : Bool :=
  decide (s ∈ [CrawlState.crawling, CrawlState.extracting, CrawlState.processing])

/-- Source `CrawlStateMachine.can_resume`. -/
def can_resume (s : CrawlState) : Bool :=
  s = .paused

/-! ## Crawl manager pause/resume (`src/backend/crawlers/manager.py`)

One job's slice of `CrawlerManager`: its `CrawlStateData` (shared with the
state machine), its pause gate (`asyncio.Event`: `true` = set = running)
and its cancel flag. The manager's persistence and event emission are
fire-and-forget side effects that never change the job state. -/

structure ManagerJob where
  state_data : CrawlStateData
  pauseFlag : Bool
  cancelFlag : Bool
deriving DecidableEq, Repr

/-- The backward scan of `resume_crawl` over `reversed(state_history[:-1])`:
first transition (from the end) whose `to_state` is not `PAUSED` gives the
target; the `for`-`else` default is `CRAWLING`. Input is the already
reversed `state_history[:-1]`. -/
def scan_resume_target : List StateTransition → CrawlState
  | [] => .crawling
  | t :: rest =>
    if t.to_state ≠ .paused then t.to_state else scan_resume_target rest

/-- Target state `resume_crawl` picks from the transition history
(`CRAWLING` when the history is empty). -/
def resume_target (history : List StateTransition) : CrawlState :=
  match history with
  | [] => .crawling
  | _ => scan_resume_target history.dropLast.reverse

/-- Source `CrawlerManager.resume_crawl` for one existing job (the missing-job
branch raises before touching anything and is outside this slice).
Mirrors the statement order: the `can_resume` check, then setting the run
signal (pause gate), then the transition — so a raising transition still
leaves the gate set, exactly as in the source. -/
def resume_crawl (job : ManagerJob) (now : Int) :
    ManagerJob × Except TransErr Bool :=
  if ¬ can_resume job.state_data.current_state then
    (job, .ok false)
  else
    let job1 := { job with pauseFlag := true }
    let target := resume_target job1.state_data.state_history
    match transition job1.state_data target now with
    | (sd, .ok _) => ({ job1 with state_data := sd }, .ok true)
    | (sd, .error e) => ({ job1 with state_data := sd }, .error e)

/-- Source `CrawlerManager.pause_crawl` effect on one job's state (the pause
checkpoint is written to the separate checkpoint manager and a write
failure there is caught, so it cannot affect the job): `can_pause` gate,
clear the pause gate, transition to `PAUSED`. -/
def pause_crawl (job : ManagerJob) (now : Int) :
    ManagerJob × Except TransErr Bool :=
  if ¬ can_pause job.state_data.current_state then
    (job, .ok false)
  else
    let job1 := { job with pauseFlag := false }
    match transition job1.state_data .paused now with
    | (sd, .ok _) => ({ job1 with state_data := sd }, .ok true)
    | (sd, .error e) => ({ job1 with state_data := sd }, .error e)

/-- Source `CrawlerManager.create_crawl`'s job state: fresh `QUEUED` state data,
pause gate set (running), cancel flag clear. -/
def create_crawl (crawl_id : String) (now : Int) : ManagerJob :=
  { state_data :=
      { crawl_id := crawl_id
        current_state := .queued
        created_at := now }
    pauseFlag := true
    cancelFlag := false }

/-- Scenario B job: created `QUEUED` at time 0, transitioned to
`INITIALIZING` at 1 and `CRAWLING` at 2 (as `execute_crawl` does via
`_transition_state`). -/
def scenarioB_job : ManagerJob :=
  let j0 := create_crawl "job" 0
  let j1 : ManagerJob := { j0 with state_data := (transition j0.state_data .initializing 1).1 }
  { j1 with state_data := (transition j1.state_data .crawling 2).1 }

/-- Scenario B, `pause()` step at time 3. -/
def scenarioB_pause : ManagerJob × Except TransErr Bool :=
  pause_crawl scenarioB_job 3

/-- Scenario B, `resume()` step at time 4. -/
def scenarioB_resume : ManagerJob × Except TransErr Bool :=
  resume_crawl scenarioB_pause.1 4

/-! ## Iteration subsystem (`src/backend/utils/iteration_manager.py`) -/

/-- Source `IterationMode` enum. -/
inductive IterationMode where
  | baseline
  | incremental
  | full
deriving DecidableEq, Repr

/-- Source `ChangeType` enum. -/
inductive ChangeType where
  | new
  | modified
  | unchanged
  | deleted
deriving DecidableEq, Repr

/-- Source `DocumentFingerprint` (the fields `should_crawl_url` consults; a
Python `None` or empty header string is `none`). -/
structure DocumentFingerprint where
  url : String
  content_hash : String
  etag : Option String
  last_modified : Option String
deriving DecidableEq, Repr

/-- Source `IterationMetadata` (fields relevant to linking and change detection). -/
structure IterationMetadata where
  iteration_id : String
  crawl_id : String
  iteration_number : Nat
  parent_iteration_id : Option String
  baseline_iteration_id : Option String
  mode : IterationMode
deriving DecidableEq, Repr

/-- Source `IterationManager` in-memory state: `iterations` is the values of the
`iteration_id → metadata` dict in insertion order; `fingerprints` maps an
iteration id to its `url → fingerprint` dict (as an association list). -/
structure IterationManager where
  iterations : List IterationMetadata
  fingerprints : List (String × List (String × DocumentFingerprint))
deriving DecidableEq, Repr

/-- Fresh manager with no iterations (`_load_iterations` on empty storage). -/
def emptyIterationManager : IterationManager :=
  { iterations := [], fingerprints := [] }

/-- Source `self.iterations.get(iteration_id)`. -/
def get_iteration (m : IterationManager) (iteration_id : String) :
    Option IterationMetadata :=
  m.iterations.find? (fun meta => meta.iteration_id == iteration_id)

/-- Source `self.fingerprints.get(parent_iteration_id, {}).get(url)`. -/
def fingerprint_for (m : IterationManager) (iteration_id url : String) :
    Option DocumentFingerprint :=
  match m.fingerprints.find? (fun p => p.1 == iteration_id) with
  | none => none
  | some p => (p.2.find? (fun q => q.1 == url)).map (fun q => q.2)

/-- Stable insertion of one element into a list sorted by
`iteration_number`: the element (which originally precedes the tail) goes
before the first tail element with an equal or larger key, so equal keys
keep their original relative order, as with Python's stable `list.sort`. -/
def insertByNumber (x : IterationMetadata) :
    List IterationMetadata → List IterationMetadata
  | [] => [x]
  | y :: ys =>
    if x.iteration_number ≤ y.iteration_number then x :: y :: ys
    else y :: insertByNumber x ys

/-- Stable sort by `iteration_number` (the `iterations.sort(key=...)` in
`_get_iterations_for_crawl`). -/
def sortByNumber : List IterationMetadata → List IterationMetadata
  | [] => []
  | x :: xs => insertByNumber x (sortByNumber xs)

/-- Source `IterationManager._get_iterations_for_crawl`: filter the dict values
by crawl id, sorted by iteration number. -/
def get_iterations_for_crawl (m : IterationManager) (crawl_id : String) :
    List IterationMetadata :=
  sortByNumber (m.iterations.filter (fun meta => meta.crawl_id == crawl_id))

/-- Source `IterationManager.create_iteration` (directory/file-path bookkeeping
and `_save_iteration` are I/O side effects that do not touch the in-memory
state). Returns the new iteration id and the updated manager. -/
def create_iteration (m : IterationManager) (crawl_id : String)
    (mode : IterationMode) : String × IterationManager :=
  let existing := get_iterations_for_crawl m crawl_id
  let iteration_number := existing.length
  let iteration_id := crawl_id ++ "_iter_" ++ toString iteration_number
  let parent_iteration_id : Option String :=
    match existing.getLast? with
    | some last => some last.iteration_id
    | none => none
  let baseline_iteration_id : Option String :=
    match existing.head? with
    | some first => some first.iteration_id
    | none => none
  let metadata : IterationMetadata :=
    { iteration_id := iteration_id
      crawl_id := crawl_id
      iteration_number := iteration_number
      parent_iteration_id := parent_iteration_id
      baseline_iteration_id := baseline_iteration_id
      mode := mode }
  (iteration_id,
    { m with
        iterations := m.iterations ++ [metadata]
        fingerprints := m.fingerprints ++ [(iteration_id, [])] })

/-- Iterations of one crawl in dict insertion order (the unsorted
`filter` inside `_get_iterations_for_crawl`). -/
def iterationsFor (m : IterationManager) (crawl_id : String) :
    List IterationMetadata :=
  m.iterations.filter (fun meta => meta.crawl_id == crawl_id)

/-- The list's iteration numbers are consecutive starting at `k`. -/
def numberedFrom : Nat → List IterationMetadata → Prop
  | _, [] => True
  | k, x :: xs => x.iteration_number = k ∧ numberedFrom (k + 1) xs

/-- Every element links to its predecessor as parent and to `base` as
baseline. -/
def chainOk (base : IterationMetadata) :
    IterationMetadata → List IterationMetadata → Prop
  | _, [] => True
  | prev, x :: xs =>
    x.parent_iteration_id = some prev.iteration_id ∧
    x.baseline_iteration_id = some base.iteration_id ∧
    chainOk base x xs

/-- Link structure of one crawl's iterations: the first (iteration 0) has
neither parent nor baseline link; each later one points to its predecessor
and to the first. -/
def iterLinksOk : List IterationMetadata → Prop
  | [] => True
  | first :: rest =>
    first.parent_iteration_id = none ∧
    first.baseline_iteration_id = none ∧
    chainOk first first rest

/-- Replay a sequence of `create_iteration` calls. -/
def applyCreates (m : IterationManager) :
    List (String × IterationMode) → IterationManager
  | [] => m
  | (c, mode) :: ops => applyCreates (create_iteration m c mode).2 ops

/-- Source `IterationManager.should_crawl_url`. -/
def should_crawl_url (m : IterationManager) (iteration_id url : String)
    (current_etag current_last_modified : Option String) :
    Bool × Option ChangeType :=
  match get_iteration m iteration_id with
  | none => (true, none)
  | some metadata =>
    match metadata.mode with
    | .baseline | .full => (true, some .new)
    | .incremental =>
      match metadata.parent_iteration_id with
      | none => (true, some .new)
      | some parent_id =>
        match fingerprint_for m parent_id url with
        | none => (true, some .new)
        | some parent_fp =>
          match current_etag, parent_fp.etag with
          | some ce, some pe =>
            if ce = pe then (false, some .unchanged) else (true, some .modified)
          | _, _ =>
            match current_last_modified, parent_fp.last_modified with
            | some clm, some plm =>
              if clm = plm then (false, some .unchanged) else (true, some .modified)
            | _, _ => (true, some .modified)

/-! ## Checkpoint subsystem (`src/backend/utils/checkpoint.py`)

One job's slice of `CheckpointManager.checkpoints[crawl_id]` (operations
on different crawl ids never touch each other's lists: `create_checkpoint`
reads and appends only its own crawl's list, and `delete_checkpoint`
removes an entry only from the list that contains the matching id). -/

/-- Source `CheckpointMetadata` (identity fields; the snapshot payload lives in
the separate data file and plays no role in the uniqueness claim). -/
structure CheckpointMeta where
  checkpoint_id : String
  crawl_id : String
  checkpoint_number : Nat
deriving DecidableEq, Repr

/-- Source `CheckpointManager.create_checkpoint` on one crawl's checkpoint list:
the assigned number is `len(existing)` and the id embeds it. -/
def create_checkpoint (crawl_id : String) (l : List CheckpointMeta) :
    String × List CheckpointMeta :=
  let checkpoint_number := l.length
  let checkpoint_id := crawl_id ++ "_ckpt_" ++ toString checkpoint_number
  (checkpoint_id,
    l ++ [{ checkpoint_id := checkpoint_id
            crawl_id := crawl_id
            checkpoint_number := checkpoint_number }])

/-- Source `CheckpointManager.delete_checkpoint`: removes the first entry with
the matching id (file unlinking is I/O). -/
def delete_checkpoint (checkpoint_id : String) (l : List CheckpointMeta) :
    List CheckpointMeta :=
  l.eraseP (fun c => c.checkpoint_id == checkpoint_id)

/-- Source `CheckpointManager.delete_old_checkpoints`: keep the last
`keep_last`; Python's `checkpoints[:-keep_last]` is empty when
`keep_last = 0`, so that call deletes nothing. -/
def delete_old_checkpoints (keep_last : Nat) (l : List CheckpointMeta) :
    List CheckpointMeta :=
  if l.length ≤ keep_last then l
  else
    let to_delete := if keep_last = 0 then [] else l.take (l.length - keep_last)
    to_delete.foldl (fun acc c => delete_checkpoint c.checkpoint_id acc) l

/-- Checkpoint-manager operations on one crawl's list. -/
inductive CkptOp where
  | create
  | delete (checkpoint_id : String)
  | prune (keep_last : Nat)
deriving DecidableEq, Repr

/-- Replay a sequence of checkpoint operations for one crawl id. -/
def applyCkptOps (crawl_id : String) :
    List CkptOp → List CheckpointMeta → List CheckpointMeta
  | [], l => l
  | .create :: ops, l => applyCkptOps crawl_id ops (create_checkpoint crawl_id l).2
  | .delete cid :: ops, l => applyCkptOps crawl_id ops (delete_checkpoint cid l)
  | .prune k :: ops, l => applyCkptOps crawl_id ops (delete_old_checkpoints k l)

/-- Replay of `n` consecutive `create_checkpoint` calls for one crawl,
from empty. -/
def createdCheckpoints (crawl_id : String) (n : Nat) : List CheckpointMeta :=
  applyCkptOps crawl_id (List.replicate n .create) []

/-! ## Event bus (`src/backend/events/event_bus.py`) -/

/-- Source `EventType` enum. -/
inductive EventType where
  | state_change | substate_change
  | progress_update | milestone_reached
  | document_found | document_downloaded | document_processed
  | extraction_started | extraction_complete | extraction_failed
  | quality_assessed | quality_threshold_passed | quality_threshold_failed
  | page_crawled | page_failed
  | error | warning
  | metrics_update | crawl_paused | crawl_resumed | crawl_cancelled
  | crawl_completed
deriving DecidableEq, Repr

/-- Source `CrawlEvent` (identity fields; the `data`/`metadata` dicts are opaque
payloads no claim inspects). -/
structure CrawlEvent where
  event_id : String
  crawl_id : String
  event_type : EventType
  timestamp : Int
deriving DecidableEq, Repr

/-- A subscriber callback, abstracted to its observable behaviour on this
publish: its identity and whether invoking it raises. -/
structure Callback where
  id : Nat
  throws : Bool
deriving DecidableEq, Repr

/-- Invoking a callback: `Except.error` models the Python call raising. -/
def runCallback (cb : Callback) : Except Unit Unit :=
  if cb.throws then .error () else .ok ()

/-- A WebSocket connection: `send_text` succeeds iff `alive`. -/
structure WebSock where
  id : Nat
  alive : Bool
deriving DecidableEq, Repr

/-- Source `EventHistory` main deque cap (`deque(maxlen=1000)`). -/
def HISTORY_MAX : Nat := 1000

/-- Source `EventHistory.add` on the main deque: append, dropping from the left
when over capacity. -/
def historyAdd (h : List CrawlEvent) (ev : CrawlEvent) : List CrawlEvent :=
  let l := h ++ [ev]
  if HISTORY_MAX < l.length then l.drop (l.length - HISTORY_MAX) else l

/-- Observable steps of one `publish` call, in execution order. -/
inductive BusAction where
  | invoked (id : Nat) (raised : Bool)
  | wsSent (id : Nat) (ok : Bool)
  | wsManagerBroadcast
deriving DecidableEq, Repr

/-- The `for callback in …: try: callback(event) except: log` loop: every
callback is invoked; a raise is caught and the loop continues. -/
def invokeAll (cbs : List Callback) : List BusAction :=
  cbs.map fun cb =>
    match runCallback cb with
    | .ok _ => .invoked cb.id false
    | .error _ => .invoked cb.id true

/-- Dict lookup on an association list (`dict.get`). -/
def lookup {α : Type} (l : List (String × α)) (k : String) : Option α :=
  (l.find? (fun p => p.1 == k)).map (fun p => p.2)

/-- In-place update of an existing dict key. -/
def assocUpdate {α : Type} (k : String) (f : α → α) :
    List (String × α) → List (String × α)
  | [] => []
  | (k', v) :: rest =>
    if k' == k then (k', f v) :: rest else (k', v) :: assocUpdate k f rest

/-- Source `EventBus` state. `has_ws_manager` abstracts whether a WebSocket
manager is available to `_broadcast_via_ws_manager` (its broadcast errors
are caught). -/
structure EventBus where
  histories : List (String × List CrawlEvent)
  subscribers : List (String × List Callback)
  global_subscribers : List Callback
  websockets : List (String × List WebSock)
  has_ws_manager : Bool
deriving DecidableEq, Repr

/-- Per-job subscribers registered for a crawl id (empty when the key is
absent, in which case the Python loop simply does not run). -/
def subsFor (bus : EventBus) (crawl_id : String) : List Callback :=
  match lookup bus.subscribers crawl_id with
  | some cbs => cbs
  | none => []

/-- WebSocket connections registered for a crawl id. -/
def socksFor (bus : EventBus) (crawl_id : String) : List WebSock :=
  match lookup bus.websockets crawl_id with
  | some ws => ws
  | none => []

/-- Source `EventBus._broadcast_to_websockets`: attempt `send_text` on every
registered socket, collecting failures, then remove the dead sockets. -/
def broadcast_to_websockets (bus : EventBus) (crawl_id : String) :
    EventBus × List BusAction :=
  match lookup bus.websockets crawl_id with
  | none => (bus, [])
  | some socks =>
    ({ bus with
        websockets :=
          assocUpdate crawl_id (fun ws => ws.filter (fun w => w.alive))
            bus.websockets },
     socks.map (fun w => .wsSent w.id w.alive))

/-- Source `EventBus.publish`: create-or-extend the job's history, invoke per-job
subscribers, then global subscribers (each behind its own `try`/`except`),
then broadcast to the job's WebSockets, then via the WebSocket manager.
Returns the new bus state and the executed actions in order. -/
def publish (bus : EventBus) (ev : CrawlEvent) : EventBus × List BusAction :=
  let histories :=
    match lookup bus.histories ev.crawl_id with
    | none => bus.histories ++ [(ev.crawl_id, historyAdd [] ev)]
    | some _ => assocUpdate ev.crawl_id (fun h => historyAdd h ev) bus.histories
  let bus1 := { bus with histories := histories }
  let subActs := invokeAll (subsFor bus1 ev.crawl_id)
  let globActs := invokeAll bus1.global_subscribers
  let wsResult := broadcast_to_websockets bus1 ev.crawl_id
  let mgrActs : List BusAction :=
    if wsResult.1.has_ws_manager then [.wsManagerBroadcast] else []
  (wsResult.1, subActs ++ globActs ++ wsResult.2 ++ mgrActs)

/-! ## Discovery candidate selection (`src/backend/utils/discovery.py`)

`discover_documents` depends on `limits.max_documents` in exactly two
places: the `should_scan_pages` cut-off (page scanning is skipped when the
sitemap/WP file candidates already reach `max_documents` and sitemaps are
preferred) and the `len(documents) >= max_documents` break in the final
selection loop. Everything upstream (robots, sitemap traversal, WP media,
page scanning itself) is fixed by the targets, the network responses and
the validation-cache state, which the claim holds fixed; the per-candidate
verdict (per-domain quota aside) collapses into one pure predicate
`accepts` because robots allowance, the cached/preflight probe and the
taxonomy filters each depend only on the URL under those fixings. -/

/-- Fixed per-candidate environment of the selection loop. -/
structure SelectParams where
  accepts : String → Bool
  host : String → String
  per_domain_limit : Nat

/-- The final `for url in file_candidates_list` loop: stop at
`max_documents`, skip a candidate whose domain reached the per-domain cap
(a cap of `0` disables the check, as in the source), skip rejected
candidates, append accepted ones and bump the domain counter. -/
def selectDocuments (p : SelectParams) (max_documents : Nat) :
    List String → List String → (String → Nat) → List String
  | [], documents, _ => documents
  | url :: rest, documents, counts =>
    if max_documents ≤ documents.length then documents
    else if 0 < p.per_domain_limit ∧ p.per_domain_limit ≤ counts (p.host url) then
      selectDocuments p max_documents rest documents counts
    else if p.accepts url then
      selectDocuments p max_documents rest (documents ++ [url])
        (fun h => if h = p.host url then counts h + 1 else counts h)
    else
      selectDocuments p max_documents rest documents counts

/-- Fixed inputs of one `discover_documents` call: the sitemap/WP file
candidates, the extra file candidates page scanning would contribute
(deduplicated against the former — `file_candidates` is a set), and the
scan-gating flags. -/
structure DiscoveryConfig where
  p : SelectParams
  baseCandidates : List String
  scanExtras : List String
  prefer_sitemaps : Bool
  sitemap_only : Bool

/-- Source `should_scan_pages`: `not sitemap_only`, turned off when sitemaps are
preferred and the sitemap-derived candidates already reach
`max_documents`. -/
def should_scan_pages (d : DiscoveryConfig) (max_documents : Nat) : Bool :=
  !d.sitemap_only
    && !(d.prefer_sitemaps && decide (max_documents ≤ d.baseCandidates.length))

/-- The file-candidate pool the selection loop runs over. -/
def fileCandidates (d : DiscoveryConfig) (max_documents : Nat) : List String :=
  if should_scan_pages d max_documents then d.baseCandidates ++ d.scanExtras
  else d.baseCandidates

/-- The document candidates `discover_documents` returns. -/
def discovered_documents (d : DiscoveryConfig) (max_documents : Nat) :
    List String :=
  selectDocuments d.p max_documents (fileCandidates d max_documents) []
    (fun _ => 0)

end GenCrawl

namespace GenCrawl

/-! ## Theorems: C1, C2, C3, C4 -/

/-- C1: for every job state and every requested target state not in
`VALID_TRANSITIONS` of the current state, `transition` fails with an
`InvalidTransition` error and leaves the job state unchanged:
`current_state`, `current_substate`, `state_history`, `started_at`,
`completed_at` and `paused_at` are exactly as before the call. -/
theorem transition_invalid_is_error_and_pure (sd : CrawlStateData)
    (to_state : CrawlState) (now : Int)
    (h : to_state ∉ VALID_TRANSITIONS sd.current_state) :
    (transition sd to_state now).2
        = .error (.invalidTransition sd.current_state to_state) ∧
    (transition sd to_state now).1 = sd ∧
    (transition sd to_state now).1.current_state = sd.current_state ∧
    (transition sd to_state now).1.current_substate = sd.current_substate ∧
    (transition sd to_state now).1.state_history = sd.state_history ∧
    (transition sd to_state now).1.started_at = sd.started_at ∧
    (transition sd to_state now).1.completed_at = sd.completed_at ∧
    (transition sd to_state now).1.paused_at = sd.paused_at := by
  have hc : can_transition sd to_state = false := by
    simp [can_transition, h]
  simp [transition, hc]

/-- Witness for C1 at a concrete input: a `QUEUED` job asked to jump
straight to `COMPLETED`. -/
theorem transition_invalid_is_error_and_pure_witness :
    (CrawlState.completed ∉ VALID_TRANSITIONS
        (CrawlStateData.mk "job" .queued none 0 none none none [] 0).current_state) ∧
    ((transition (CrawlStateData.mk "job" .queued none 0 none none none [] 0)
        .completed 7).2
      = .error (.invalidTransition .queued .completed) ∧
     (transition (CrawlStateData.mk "job" .queued none 0 none none none [] 0)
        .completed 7).1
      = CrawlStateData.mk "job" .queued none 0 none none none [] 0 ∧
     (transition (CrawlStateData.mk "job" .queued none 0 none none none [] 0)
        .completed 7).1.current_state = .queued ∧
     (transition (CrawlStateData.mk "job" .queued none 0 none none none [] 0)
        .completed 7).1.current_substate = none ∧
     (transition (CrawlStateData.mk "job" .queued none 0 none none none [] 0)
        .completed 7).1.state_history = [] ∧
     (transition (CrawlStateData.mk "job" .queued none 0 none none none [] 0)
        .completed 7).1.started_at = none ∧
     (transition (CrawlStateData.mk "job" .queued none 0 none none none [] 0)
        .completed 7).1.completed_at = none ∧
     (transition (CrawlStateData.mk "job" .queued none 0 none none none [] 0)
        .completed 7).1.paused_at = none) :=
  ⟨by decide,
   transition_invalid_is_error_and_pure
     (CrawlStateData.mk "job" .queued none 0 none none none [] 0)
     .completed 7 (by decide)⟩

/-- C2: `is_terminal_state` holds exactly for `COMPLETED`, `FAILED` and
`CANCELLED`; each terminal state has an empty list of allowed outgoing
transitions; and consequently `transition` out of a terminal state is
never accepted (it always errors). -/
theorem terminal_states_have_no_transitions :
    (∀ s : CrawlState, is_terminal_state s
        = (s = .completed ∨ s = .failed ∨ s = .cancelled : Bool)) ∧
    VALID_TRANSITIONS .completed = [] ∧
    VALID_TRANSITIONS .failed = [] ∧
    VALID_TRANSITIONS .cancelled = [] ∧
    (∀ (sd : CrawlStateData) (to_state : CrawlState) (now : Int),
      is_terminal_state sd.current_state = true →
      (transition sd to_state now).2
        = .error (.invalidTransition sd.current_state to_state)) := by
  refine ⟨by intro s; cases s <;> rfl, rfl, rfl, rfl, ?_⟩
  intro sd to_state now hterm
  have hc : can_transition sd to_state = false := by
    cases hcur : sd.current_state <;>
      simp [is_terminal_state, hcur] at hterm <;>
      simp [can_transition, VALID_TRANSITIONS, hcur]
  simp [transition, hc]

/-- Witness for C2's implication part: a job already `COMPLETED` cannot
transition anywhere, e.g. not back to `CRAWLING`. -/
theorem terminal_states_have_no_transitions_witness :
    is_terminal_state
      (CrawlStateData.mk "job" .completed none 0 none none none [] 0).current_state
      = true ∧
    (transition (CrawlStateData.mk "job" .completed none 0 none none none [] 0)
        .crawling 5).2
      = .error (.invalidTransition .completed .crawling) :=
  ⟨by decide,
   terminal_states_have_no_transitions.2.2.2.2
     (CrawlStateData.mk "job" .completed none 0 none none none [] 0)
     .crawling 5 (by decide)⟩

/-- C3: `resume_crawl` on an existing job returns `false` when the job is
not `PAUSED`; when it is `PAUSED` (and the history scan yields one of the
three active phases, the only states a pause can come from), it sets the
run signal and transitions into the phase found by scanning the transition
history backward for the last non-`PAUSED` state; in particular, after
`QUEUED → INITIALIZING → CRAWLING → pause()`, `resume()` returns the job
to `CRAWLING` and returns `true`. -/
theorem resume_crawl_behaviour :
    (∀ (job : ManagerJob) (now : Int),
      job.state_data.current_state ≠ .paused →
      resume_crawl job now = (job, .ok false)) ∧
    (∀ (job : ManagerJob) (now : Int),
      job.state_data.current_state = .paused →
      resume_target job.state_data.state_history
          ∈ [CrawlState.crawling, CrawlState.extracting, CrawlState.processing] →
      (resume_crawl job now).2 = .ok true ∧
      (resume_crawl job now).1.pauseFlag = true ∧
      (resume_crawl job now).1.state_data.current_state
        = resume_target job.state_data.state_history) ∧
    (scenarioB_pause.2 = .ok true ∧
     scenarioB_pause.1.state_data.current_state = .paused ∧
     can_resume scenarioB_pause.1.state_data.current_state = true ∧
     scenarioB_resume.2 = .ok true ∧
     scenarioB_resume.1.state_data.current_state = .crawling ∧
     scenarioB_resume.1.pauseFlag = true) := by
  refine ⟨?_, ?_, ?_⟩
  · intro job now hne
    have hcr : can_resume job.state_data.current_state = false := by
      simp [can_resume, hne]
    simp [resume_crawl, hcr]
  · intro job now hp hmem
    have hcr : can_resume job.state_data.current_state = true := by
      simp [can_resume, hp]
    simp only [List.mem_cons, List.not_mem_nil, or_false] at hmem
    rcases hmem with h | h | h <;>
      simp [resume_crawl, hcr, transition, can_transition, can_resume,
        VALID_TRANSITIONS, hp, h]
  · exact ⟨rfl, rfl, rfl, rfl, rfl, rfl⟩

/-- Witness for C3's two conditional parts: a non-paused (`CRAWLING`) job
refuses to resume; a concretely paused job resumes into `CRAWLING`. -/
theorem resume_crawl_behaviour_witness :
    ((ManagerJob.mk (CrawlStateData.mk "a" .crawling none 0 none none none [] 0)
        true false).state_data.current_state ≠ .paused ∧
     resume_crawl
        (ManagerJob.mk (CrawlStateData.mk "a" .crawling none 0 none none none [] 0)
          true false) 9
        = (ManagerJob.mk (CrawlStateData.mk "a" .crawling none 0 none none none [] 0)
            true false, .ok false)) ∧
    ((ManagerJob.mk (CrawlStateData.mk "b" .paused none 0 (some 1) none (some 3)
        [{ from_state := .queued, to_state := .initializing, timestamp := 1,
           duration_seconds := none },
         { from_state := .initializing, to_state := .crawling, timestamp := 2,
           duration_seconds := some 1 },
         { from_state := .crawling, to_state := .paused, timestamp := 3,
           duration_seconds := some 1 }] 0) false false).state_data.current_state
        = .paused ∧
     (resume_crawl
        (ManagerJob.mk (CrawlStateData.mk "b" .paused none 0 (some 1) none (some 3)
          [{ from_state := .queued, to_state := .initializing, timestamp := 1,
             duration_seconds := none },
           { from_state := .initializing, to_state := .crawling, timestamp := 2,
             duration_seconds := some 1 },
           { from_state := .crawling, to_state := .paused, timestamp := 3,
             duration_seconds := some 1 }] 0) false false) 9).2 = .ok true) :=
  ⟨⟨by decide,
    resume_crawl_behaviour.1
      (ManagerJob.mk (CrawlStateData.mk "a" .crawling none 0 none none none [] 0)
        true false) 9 (by decide)⟩,
   ⟨by decide,
    (resume_crawl_behaviour.2.1
      (ManagerJob.mk (CrawlStateData.mk "b" .paused none 0 (some 1) none (some 3)
        [{ from_state := .queued, to_state := .initializing, timestamp := 1,
           duration_seconds := none },
         { from_state := .initializing, to_state := .crawling, timestamp := 2,
           duration_seconds := some 1 },
         { from_state := .crawling, to_state := .paused, timestamp := 3,
           duration_seconds := some 1 }] 0) false false) 9 (by decide) (by decide)).1⟩⟩

/-- C4 counterexample: the very first transition of a fresh job (created at
time `0`, transitioned `QUEUED → INITIALIZING` at time `5`) is appended
with `duration_seconds = none`, not the elapsed time since the job's
creation time (`some 5`), refuting the claim's first-transition clause. -/
theorem first_transition_duration_is_none :
    ((transition (CrawlStateData.mk "job" .queued none 0 none none none [] 0)
        .initializing 5).1.state_history.map (fun t => t.duration_seconds))
      = [none] ∧
    (none : Option Int)
      ≠ some (5 - (CrawlStateData.mk "job" .queued none 0 none none none [] 0).created_at) := by
  constructor
  · rfl
  · decide

/-- C4 (amended): for every accepted state transition, the appended
`StateTransition` record carries a duration equal to the elapsed time since
the previous transition's timestamp; for the first transition of a job the
record carries no duration at all (`None`), not the elapsed time since the
job's creation. -/
theorem transition_duration_semantics (sd : CrawlStateData)
    (to_state : CrawlState) (now : Int)
    (h : to_state ∈ VALID_TRANSITIONS sd.current_state) :
    (transition sd to_state now).1.state_history
      = sd.state_history ++
        [{ from_state := sd.current_state
           to_state := to_state
           timestamp := now
           duration_seconds :=
             match sd.state_history.getLast? with
             | some prev => some (now - prev.timestamp)
             | none => none }] ∧
    (∀ prev, sd.state_history.getLast? = some prev →
      ((transition sd to_state now).1.state_history.getLast?.map
          (fun t => t.duration_seconds)) = some (some (now - prev.timestamp))) ∧
    (sd.state_history = [] →
      ((transition sd to_state now).1.state_history.getLast?.map
          (fun t => t.duration_seconds)) = some none) := by
  have hc : can_transition sd to_state = true := by
    simp [can_transition, h]
  have hmain : (transition sd to_state now).1.state_history
      = sd.state_history ++
        [{ from_state := sd.current_state
           to_state := to_state
           timestamp := now
           duration_seconds :=
             match sd.state_history.getLast? with
             | some prev => some (now - prev.timestamp)
             | none => none }] := by
    simp only [transition, hc]
    split_ifs <;> first | rfl | simp_all
  refine ⟨hmain, ?_, ?_⟩
  · intro prev hprev
    rw [hmain, hprev]
    simp
  · intro hnil
    rw [hmain, hnil]
    simp

/-- A two-iteration manager: `c_iter_0` (baseline) fingerprinted URL `u`
with ETag `"a"` and Last-Modified `"x"`; `c_iter_1` is incremental with
parent `c_iter_0`. -/
def twoIterMgr : IterationManager :=
  { iterations :=
      [{ iteration_id := "c_iter_0", crawl_id := "c", iteration_number := 0,
         parent_iteration_id := none, baseline_iteration_id := none,
         mode := .baseline },
       { iteration_id := "c_iter_1", crawl_id := "c", iteration_number := 1,
         parent_iteration_id := some "c_iter_0",
         baseline_iteration_id := some "c_iter_0", mode := .incremental }]
    fingerprints :=
      [("c_iter_0",
        [("u", { url := "u", content_hash := "h", etag := some "a",
                 last_modified := some "x" })]),
       ("c_iter_1", [])] }

/-- C5 counterexample: in incremental mode with a parent fingerprint, a
supplied Last-Modified that matches the parent's does **not** yield
`(no, UNCHANGED)` when the ETags are present and mismatch — the code
checks the ETag pair first and answers `(yes, MODIFIED)` without looking
at Last-Modified, refuting the claim's "ETag **or** Last-Modified match
means UNCHANGED" reading. -/
theorem lastModified_match_does_not_mean_unchanged :
    (fingerprint_for twoIterMgr "c_iter_0" "u").map (fun fp => fp.last_modified)
      = some (some "x") ∧
    should_crawl_url twoIterMgr "c_iter_1" "u" (some "b") (some "x")
      = (true, some .modified) ∧
    ((true, some ChangeType.modified) : Bool × Option ChangeType)
      ≠ (false, some ChangeType.unchanged) := by
  refine ⟨rfl, rfl, by decide⟩

/-- C5 (amended): `should_crawl_url` in `baseline`/`full` mode always
answers `(yes, NEW)`; in `incremental` mode with no parent fingerprint for
the URL it answers `(yes, NEW)`; with a parent fingerprint the ETag pair
takes precedence: when both the call and the parent fingerprint carry an
ETag the answer is `(no, UNCHANGED)` on match and `(yes, MODIFIED)` on
mismatch, Last-Modified is consulted only when no ETag pair is available
(match `(no, UNCHANGED)`, mismatch `(yes, MODIFIED)`), and when neither
header pair is available the answer is `(yes, MODIFIED)` so the body is
fetched and hashed. -/
theorem should_crawl_url_semantics :
    (∀ (m : IterationManager) (it url : String) (e lm : Option String)
        (meta : IterationMetadata),
      get_iteration m it = some meta →
      (meta.mode = .baseline ∨ meta.mode = .full) →
      should_crawl_url m it url e lm = (true, some .new)) ∧
    (∀ (m : IterationManager) (it url : String) (e lm : Option String)
        (meta : IterationMetadata),
      get_iteration m it = some meta →
      meta.mode = .incremental →
      meta.parent_iteration_id = none →
      should_crawl_url m it url e lm = (true, some .new)) ∧
    (∀ (m : IterationManager) (it url : String) (e lm : Option String)
        (meta : IterationMetadata) (pid : String),
      get_iteration m it = some meta →
      meta.mode = .incremental →
      meta.parent_iteration_id = some pid →
      fingerprint_for m pid url = none →
      should_crawl_url m it url e lm = (true, some .new)) ∧
    (∀ (m : IterationManager) (it url : String) (lm : Option String)
        (meta : IterationMetadata) (pid : String)
        (fp : DocumentFingerprint) (ce pe : String),
      get_iteration m it = some meta →
      meta.mode = .incremental →
      meta.parent_iteration_id = some pid →
      fingerprint_for m pid url = some fp →
      fp.etag = some pe →
      should_crawl_url m it url (some ce) lm
        = if ce = pe then (false, some .unchanged) else (true, some .modified)) ∧
    (∀ (m : IterationManager) (it url : String) (e : Option String)
        (meta : IterationMetadata) (pid : String)
        (fp : DocumentFingerprint) (clm plm : String),
      get_iteration m it = some meta →
      meta.mode = .incremental →
      meta.parent_iteration_id = some pid →
      fingerprint_for m pid url = some fp →
      (e = none ∨ fp.etag = none) →
      fp.last_modified = some plm →
      should_crawl_url m it url e (some clm)
        = if clm = plm then (false, some .unchanged) else (true, some .modified)) ∧
    (∀ (m : IterationManager) (it url : String) (e lm : Option String)
        (meta : IterationMetadata) (pid : String) (fp : DocumentFingerprint),
      get_iteration m it = some meta →
      meta.mode = .incremental →
      meta.parent_iteration_id = some pid →
      fingerprint_for m pid url = some fp →
      (e = none ∨ fp.etag = none) →
      (lm = none ∨ fp.last_modified = none) →
      should_crawl_url m it url e lm = (true, some .modified)) := by
  refine ⟨?_, ?_, ?_, ?_, ?_, ?_⟩
  · intro m it url e lm meta hget hmode
    rcases hmode with h | h <;> simp [should_crawl_url, hget, h]
  · intro m it url e lm meta hget hmode hpar
    simp [should_crawl_url, hget, hmode, hpar]
  · intro m it url e lm meta pid hget hmode hpar hfp
    simp [should_crawl_url, hget, hmode, hpar, hfp]
  · intro m it url lm meta pid fp ce pe hget hmode hpar hfp hpe
    simp [should_crawl_url, hget, hmode, hpar, hfp, hpe]
  · intro m it url e meta pid fp clm plm hget hmode hpar hfp he hplm
    rcases he with h | h <;>
      simp [should_crawl_url, hget, hmode, hpar, hfp, h, hplm]
  · intro m it url e lm meta pid fp hget hmode hpar hfp he hlm
    rcases he with h | h <;> rcases hlm with h2 | h2 <;>
      simp [should_crawl_url, hget, hmode, hpar, hfp, h, h2]

/-- Witness for C5: concrete calls on `twoIterMgr` — an incremental
iteration with matching ETags answers `(no, UNCHANGED)`. -/
theorem should_crawl_url_semantics_witness :
    get_iteration twoIterMgr "c_iter_1"
      = some { iteration_id := "c_iter_1", crawl_id := "c", iteration_number := 1,
               parent_iteration_id := some "c_iter_0",
               baseline_iteration_id := some "c_iter_0", mode := .incremental } ∧
    should_crawl_url twoIterMgr "c_iter_1" "u" (some "a") none
      = (false, some .unchanged) := by
  constructor
  · rfl
  · have h := should_crawl_url_semantics.2.2.2.1 twoIterMgr "c_iter_1" "u" none
      { iteration_id := "c_iter_1", crawl_id := "c", iteration_number := 1,
        parent_iteration_id := some "c_iter_0",
        baseline_iteration_id := some "c_iter_0", mode := .incremental }
      "c_iter_0"
      { url := "u", content_hash := "h", etag := some "a",
        last_modified := some "x" }
      "a" "a" rfl rfl rfl rfl rfl
    simpa using h

/-- C10: `should_crawl_url` called with an iteration id for which no
iteration metadata exists returns `(True, None)` — the URL is crawled
unconditionally and no change type is assigned, with no error raised. -/
theorem should_crawl_url_unknown_iteration (m : IterationManager)
    (it url : String) (e lm : Option String)
    (h : get_iteration m it = none) :
    should_crawl_url m it url e lm = (true, none) := by
  simp [should_crawl_url, h]

/-- Witness for C10: the empty manager knows no iteration `"nope"`. -/
theorem should_crawl_url_unknown_iteration_witness :
    get_iteration emptyIterationManager "nope" = none ∧
    should_crawl_url emptyIterationManager "nope" "u" none none = (true, none) :=
  ⟨rfl, should_crawl_url_unknown_iteration emptyIterationManager "nope" "u"
          none none rfl⟩

/-! Injectivity of the decimal rendering used in checkpoint/iteration ids
(`f"{crawl_id}_ckpt_{number}"` ↦ `crawl_id ++ "_ckpt_" ++ toString number`). -/

/-- Base-10 digit characters of `n`, most significant first (the list
`Nat.toDigitsCore` builds). -/
def reprDigits (n : Nat) : List Char :=
  if _ : n < 10 then [Nat.digitChar n]
  else reprDigits (n / 10) ++ [Nat.digitChar (n % 10)]
termination_by n
decreasing_by exact Nat.div_lt_self (by omega) (by omega)

theorem reprDigits_ne_nil (n : Nat) : reprDigits n ≠ [] := by
  rw [reprDigits]
  split <;> simp

theorem reprDigits_lt (n : Nat) (h : n < 10) :
    reprDigits n = [Nat.digitChar n] := by
  rw [reprDigits, dif_pos h]

theorem reprDigits_ge (n : Nat) (h : ¬ n < 10) :
    reprDigits n = reprDigits (n / 10) ++ [Nat.digitChar (n % 10)] := by
  conv_lhs => rw [reprDigits]
  rw [dif_neg h]

theorem toDigitsCore_eq_reprDigits :
    ∀ (fuel n : Nat) (ds : List Char), n < fuel →
      Nat.toDigitsCore 10 fuel n ds = reprDigits n ++ ds := by
  intro fuel
  induction fuel with
  | zero => intro n ds h; omega
  | succ f ih =>
    intro n ds h
    by_cases h10 : n / 10 = 0
    · have hn : n < 10 := (Nat.div_eq_zero_iff (by omega)).mp h10
      have hstep : Nat.toDigitsCore 10 (f + 1) n ds
          = Nat.digitChar (n % 10) :: ds := by
        simp [Nat.toDigitsCore, h10]
      rw [hstep, reprDigits_lt n hn, Nat.mod_eq_of_lt hn]
      rfl
    · have hn : ¬ n < 10 := fun hlt =>
        h10 ((Nat.div_eq_zero_iff (by omega)).mpr hlt)
      have hdiv : n / 10 < f := by
        have h1 : n / 10 < n := Nat.div_lt_self (by omega) (by omega)
        omega
      have hstep : Nat.toDigitsCore 10 (f + 1) n ds
          = Nat.toDigitsCore 10 f (n / 10) (Nat.digitChar (n % 10) :: ds) := by
        simp [Nat.toDigitsCore, h10]
      rw [hstep, ih (n / 10) (Nat.digitChar (n % 10) :: ds) hdiv,
        reprDigits_ge n hn, List.append_assoc]
      rfl

theorem repr_eq_reprDigits (n : Nat) :
    Nat.repr n = (reprDigits n).asString := by
  rw [Nat.repr, Nat.toDigits,
    toDigitsCore_eq_reprDigits (n + 1) n [] (Nat.lt_succ_self n),
    List.append_nil]

theorem digitChar_inj_fin :
    ∀ a b : Fin 10, Nat.digitChar a.val = Nat.digitChar b.val → a = b := by
  decide

theorem reprDigits_inj : ∀ m n : Nat, reprDigits m = reprDigits n → m = n := by
  intro m
  induction m using Nat.strong_induction_on with
  | _ m ih =>
    intro n h
    by_cases hm : m < 10 <;> by_cases hn : n < 10
    · rw [reprDigits_lt m hm, reprDigits_lt n hn] at h
      have hd : Nat.digitChar m = Nat.digitChar n := by
        simpa using h
      exact congrArg Fin.val (digitChar_inj_fin ⟨m, hm⟩ ⟨n, hn⟩ hd)
    · exfalso
      rw [reprDigits_lt m hm, reprDigits_ge n hn] at h
      have hlen := congrArg List.length h
      have hpos : 0 < (reprDigits (n / 10)).length :=
        List.length_pos.mpr (reprDigits_ne_nil (n / 10))
      simp only [List.length_append, List.length_cons, List.length_nil] at hlen
      omega
    · exfalso
      rw [reprDigits_ge m hm, reprDigits_lt n hn] at h
      have hlen := congrArg List.length h
      have hpos : 0 < (reprDigits (m / 10)).length :=
        List.length_pos.mpr (reprDigits_ne_nil (m / 10))
      simp only [List.length_append, List.length_cons, List.length_nil] at hlen
      omega
    · rw [reprDigits_ge m hm, reprDigits_ge n hn] at h
      have hinit : reprDigits (m / 10) = reprDigits (n / 10) := by
        have := congrArg List.dropLast h
        simpa using this
      have hlast : Nat.digitChar (m % 10) = Nat.digitChar (n % 10) := by
        have := congrArg List.getLast? h
        simpa [List.getLast?_concat] using this
      have hdiv : m / 10 = n / 10 :=
        ih (m / 10) (Nat.div_lt_self (by omega) (by omega)) (n / 10) hinit
      have hmod : m % 10 = n % 10 := by
        have := digitChar_inj_fin ⟨m % 10, Nat.mod_lt _ (by omega)⟩
          ⟨n % 10, Nat.mod_lt _ (by omega)⟩ hlast
        exact congrArg Fin.val this
      have h1 := Nat.div_add_mod m 10
      have h2 := Nat.div_add_mod n 10
      omega

theorem natToString_inj (m n : Nat) (h : toString m = toString n) : m = n := by
  have hr : Nat.repr m = Nat.repr n := h
  rw [repr_eq_reprDigits, repr_eq_reprDigits, List.asString_inj] at hr
  exact reprDigits_inj m n hr

theorem string_append_left_cancel (s t1 t2 : String)
    (h : s ++ t1 = s ++ t2) : t1 = t2 := by
  have hd := congrArg String.data h
  simp only [String.data_append] at hd
  exact congrArg String.mk (List.append_cancel_left hd)

/-! Helper lemmas for the iteration-link invariant (C6). -/

theorem getLast?_cons_eq_getLastD {α : Type} (a : α) (l : List α) :
    (a :: l).getLast? = some (l.getLastD a) := by
  induction l generalizing a with
  | nil => rfl
  | cons b bs ih => rw [List.getLast?_cons_cons, ih, List.getLastD_cons]

theorem insertByNumber_numbered (x : IterationMetadata) (k : Nat)
    (xs : List IterationMetadata) (hx : x.iteration_number = k)
    (hxs : numberedFrom (k + 1) xs) :
    insertByNumber x xs = x :: xs := by
  cases xs with
  | nil => rfl
  | cons y ys =>
    have hy : y.iteration_number = k + 1 := hxs.1
    simp [insertByNumber, hx, hy, Nat.le_succ]

theorem sortByNumber_numbered :
    ∀ (l : List IterationMetadata) (k : Nat), numberedFrom k l →
      sortByNumber l = l := by
  intro l
  induction l with
  | nil => intro k _; rfl
  | cons x xs ih =>
    intro k h
    rw [sortByNumber, ih (k + 1) h.2]
    exact insertByNumber_numbered x k xs h.1 h.2

theorem numberedFrom_append (x : IterationMetadata) :
    ∀ (l : List IterationMetadata) (k : Nat), numberedFrom k l →
      x.iteration_number = k + l.length → numberedFrom k (l ++ [x]) := by
  intro l
  induction l with
  | nil => intro k _ hx; exact ⟨by simpa using hx, trivial⟩
  | cons y ys ih =>
    intro k h hx
    refine ⟨h.1, ih (k + 1) h.2 ?_⟩
    simp only [List.length_cons] at hx
    omega

theorem chainOk_append (base x : IterationMetadata) :
    ∀ (l : List IterationMetadata) (prev : IterationMetadata),
      chainOk base prev l →
      x.parent_iteration_id = some (l.getLastD prev).iteration_id →
      x.baseline_iteration_id = some base.iteration_id →
      chainOk base prev (l ++ [x]) := by
  intro l
  induction l with
  | nil => intro prev _ hpar hbase; exact ⟨by simpa using hpar, hbase, trivial⟩
  | cons y ys ih =>
    intro prev h hpar hbase
    refine ⟨h.1, h.2.1, ih y h.2.2 ?_ hbase⟩
    rwa [List.getLastD_cons] at hpar

theorem create_iteration_invariant (m : IterationManager) (c c' : String)
    (mode : IterationMode)
    (hnum : numberedFrom 0 (iterationsFor m c))
    (hlinks : iterLinksOk (iterationsFor m c)) :
    numberedFrom 0 (iterationsFor (create_iteration m c' mode).2 c) ∧
    iterLinksOk (iterationsFor (create_iteration m c' mode).2 c) := by
  by_cases hc : c' = c
  · subst hc
    have hsort : get_iterations_for_crawl m c' = iterationsFor m c' :=
      sortByNumber_numbered (iterationsFor m c') 0 hnum
    have hfl : iterationsFor (create_iteration m c' mode).2 c'
        = iterationsFor m c' ++
          [{ iteration_id := c' ++ "_iter_" ++ toString (get_iterations_for_crawl m c').length
             crawl_id := c'
             iteration_number := (get_iterations_for_crawl m c').length
             parent_iteration_id :=
               match (get_iterations_for_crawl m c').getLast? with
               | some last => some last.iteration_id
               | none => none
             baseline_iteration_id :=
               match (get_iterations_for_crawl m c').head? with
               | some first => some first.iteration_id
               | none => none
             mode := mode }] := by
      simp [create_iteration, iterationsFor, List.filter_append]
    rw [hfl, hsort]
    constructor
    · exact numberedFrom_append _ _ 0 hnum (by simp)
    · cases hl : iterationsFor m c' with
      | nil => simp [hl, iterLinksOk, chainOk]
      | cons first rest =>
        rw [hl] at hlinks
        refine ⟨hlinks.1, hlinks.2.1, ?_⟩
        refine chainOk_append first _ rest first hlinks.2.2 ?_ ?_
        · simp [hl, getLast?_cons_eq_getLastD]
        · simp [hl]
  · have hfl : iterationsFor (create_iteration m c' mode).2 c
        = iterationsFor m c := by
      simp [create_iteration, iterationsFor, List.filter_append, hc]
    rw [hfl]
    exact ⟨hnum, hlinks⟩

theorem applyCreates_invariant :
    ∀ (ops : List (String × IterationMode)) (m : IterationManager),
      (∀ c, numberedFrom 0 (iterationsFor m c) ∧ iterLinksOk (iterationsFor m c)) →
      ∀ c, numberedFrom 0 (iterationsFor (applyCreates m ops) c) ∧
        iterLinksOk (iterationsFor (applyCreates m ops) c) := by
  intro ops
  induction ops with
  | nil => intro m h c; exact h c
  | cons op rest ih =>
    intro m h c
    exact ih (create_iteration m op.1 op.2).2
      (fun c0 => create_iteration_invariant m c0 op.1 op.2 (h c0).1 (h c0).2) c

/-- C6 counterexample: the first iteration created for a crawl (iteration
0) has `baseline_iteration_id = None` — it is **not** self-referential as
the claim states. -/
theorem first_iteration_baseline_is_none :
    (create_iteration emptyIterationManager "c" .baseline).1 = "c_iter_0" ∧
    (create_iteration emptyIterationManager "c" .baseline).2.iterations.map
        (fun x => x.baseline_iteration_id) = [none] ∧
    (none : Option String) ≠ some "c_iter_0" :=
  ⟨rfl, rfl, by decide⟩

/-- C6 (amended): `create_iteration` assigns iteration number = count of
existing iterations for the crawl id; the new iteration's parent link is
the most recent existing iteration and its baseline link is iteration 0,
both absent (`None`) when the created iteration is itself iteration 0.
Consequently, over any sequence of creations from an empty manager, each
crawl's iterations are numbered consecutively from 0, iteration 0 has no
parent and no baseline, and every later iteration points to its
predecessor as parent and to iteration 0 as baseline. -/
theorem create_iteration_numbering_and_links :
    (∀ (m : IterationManager) (c : String) (mode : IterationMode),
      (create_iteration m c mode).2.iterations.getLast?.map
          (fun x => (x.iteration_number, x.parent_iteration_id,
                     x.baseline_iteration_id))
        = some ((get_iterations_for_crawl m c).length,
            (get_iterations_for_crawl m c).getLast?.map (fun x => x.iteration_id),
            (get_iterations_for_crawl m c).head?.map (fun x => x.iteration_id))) ∧
    (∀ (ops : List (String × IterationMode)) (c : String),
      numberedFrom 0 (iterationsFor (applyCreates emptyIterationManager ops) c) ∧
      iterLinksOk (iterationsFor (applyCreates emptyIterationManager ops) c)) := by
  constructor
  · intro m c mode
    simp only [create_iteration, List.getLast?_concat, Option.map_some]
    cases hg : (get_iterations_for_crawl m c).getLast? <;>
      cases hh : (get_iterations_for_crawl m c).head? <;> simp [hg, hh]
  · intro ops c
    exact applyCreates_invariant ops emptyIterationManager
      (fun _ => ⟨trivial, trivial⟩) c

/-! Helper lemmas for discovery monotonicity (C7).

`file_candidates` is a Python set, so the selection loop receives its
elements in an unspecified order; the count of accepted candidates is
proved invariant under permutation of the candidate list, which lets the
monotonicity theorem quantify over arbitrary enumeration orders. -/

/-- Bump the counter of one host. -/
def bumpCount (h0 : String) (counts : String → Nat) : String → Nat :=
  fun h => if h = h0 then counts h + 1 else counts h

/-- The selection loop tracking only the length of `documents` (its
result length depends on the input documents only through their count). -/
def selectLen (p : SelectParams) (max_documents : Nat) :
    List String → Nat → (String → Nat) → Nat
  | [], L, _ => L
  | url :: rest, L, counts =>
    if max_documents ≤ L then L
    else if 0 < p.per_domain_limit ∧ p.per_domain_limit ≤ counts (p.host url) then
      selectLen p max_documents rest L counts
    else if p.accepts url then
      selectLen p max_documents rest (L + 1) (bumpCount (p.host url) counts)
    else
      selectLen p max_documents rest L counts

theorem selectDocuments_length_eq_selectLen (p : SelectParams) (m : Nat) :
    ∀ (cands docs : List String) (counts : String → Nat),
      (selectDocuments p m cands docs counts).length
        = selectLen p m cands docs.length counts := by
  intro cands
  induction cands with
  | nil => intro docs counts; rfl
  | cons url rest ih =>
    intro docs counts
    rw [selectDocuments, selectLen]
    split_ifs
    · rfl
    · exact ih docs counts
    · have h2 := ih (docs ++ [url]) (bumpCount (p.host url) counts)
      simpa [bumpCount] using h2
    · exact ih docs counts

theorem selectLen_of_ge (p : SelectParams) (m : Nat) :
    ∀ (cands : List String) (L : Nat) (counts : String → Nat),
      m ≤ L → selectLen p m cands L counts = L := by
  intro cands
  induction cands with
  | nil => intro L counts _; rfl
  | cons url rest _ =>
    intro L counts h
    rw [selectLen, if_pos h]

theorem bumpCount_comm (h1 h2 : String) (counts : String → Nat) :
    bumpCount h1 (bumpCount h2 counts) = bumpCount h2 (bumpCount h1 counts) := by
  by_cases e : h1 = h2
  · rw [e]
  · have e' : ¬ h2 = h1 := fun hh => e hh.symm
    funext h
    by_cases e1 : h = h1 <;> by_cases e2 : h = h2
    · exact absurd (e1.symm.trans e2) e
    · simp [bumpCount, e1, e2, e, e']
    · simp [bumpCount, e1, e2, e, e']
    · simp [bumpCount, e1, e2, e, e']

theorem bumpCount_le (h0 h : String) (counts : String → Nat) :
    counts h ≤ bumpCount h0 counts h := by
  by_cases e : h = h0 <;> simp [bumpCount, e]

/-- One candidate's effect on the loop state (document count, per-domain
counters), without the `max_documents` break check. -/
def selectStep (p : SelectParams) (url : String) (L : Nat)
    (counts : String → Nat) : Nat × (String → Nat) :=
  if 0 < p.per_domain_limit ∧ p.per_domain_limit ≤ counts (p.host url) then
    (L, counts)
  else if p.accepts url then (L + 1, bumpCount (p.host url) counts)
  else (L, counts)

theorem selectLen_cons (p : SelectParams) (m : Nat) (u : String)
    (rest : List String) (L : Nat) (counts : String → Nat) :
    selectLen p m (u :: rest) L counts
      = if m ≤ L then L
        else selectLen p m rest (selectStep p u L counts).1
          (selectStep p u L counts).2 := by
  rw [selectLen]
  by_cases hm : m ≤ L
  · rw [if_pos hm, if_pos hm]
  · rw [if_neg hm, if_neg hm]
    unfold selectStep
    split_ifs <;> rfl

theorem selectStep_cases (p : SelectParams) (u : String) (L : Nat)
    (counts : String → Nat) :
    selectStep p u L counts = (L, counts) ∨
    selectStep p u L counts = (L + 1, bumpCount (p.host u) counts) := by
  unfold selectStep
  split_ifs
  · exact Or.inl rfl
  · exact Or.inr rfl
  · exact Or.inl rfl

theorem bumpCount_self (h0 : String) (counts : String → Nat) :
    bumpCount h0 counts h0 = counts h0 + 1 := by
  simp [bumpCount]

theorem selectStep_id_of_reject (p : SelectParams) (u : String)
    (hrej : p.accepts u = false) (L : Nat) (counts : String → Nat) :
    selectStep p u L counts = (L, counts) := by
  unfold selectStep
  split_ifs <;> simp_all

theorem selectStep_comm (p : SelectParams) (x y : String) (L : Nat)
    (counts : String → Nat) :
    selectStep p x (selectStep p y L counts).1 (selectStep p y L counts).2
      = selectStep p y (selectStep p x L counts).1 (selectStep p x L counts).2 := by
  by_cases hax : p.accepts x = true
  case neg =>
    have hx : p.accepts x = false := by simpa using hax
    rw [selectStep_id_of_reject p x hx, selectStep_id_of_reject p x hx]
  by_cases hay : p.accepts y = true
  case neg =>
    have hy : p.accepts y = false := by simpa using hay
    rw [selectStep_id_of_reject p y hy, selectStep_id_of_reject p y hy]
  -- both candidates pass the filters; only the per-domain cap interacts
  by_cases hh : p.host x = p.host y
  · by_cases hskip : 0 < p.per_domain_limit ∧
        p.per_domain_limit ≤ counts (p.host y)
    · -- domain already at cap: both sides skip both candidates
      have hskipx : 0 < p.per_domain_limit ∧
          p.per_domain_limit ≤ counts (p.host x) := by rwa [hh]
      simp [selectStep, hskip, hskipx, hh]
    · -- one slot (at least) free
      by_cases hskip1 : 0 < p.per_domain_limit ∧
          p.per_domain_limit ≤ counts (p.host y) + 1
      · -- exactly one slot free: first accepted, second skipped, either way
        simp [selectStep, hskip, hskip1, hh, hax, hay, bumpCount_self]
      · -- two or more slots free (or no cap): both accepted
        simp [selectStep, hskip, hskip1, hh, hax, hay, bumpCount_self]
  · -- different domains: the two cap checks are independent
    have hbyx : bumpCount (p.host y) counts (p.host x) = counts (p.host x) := by
      simp [bumpCount, hh]
    have hbxy : bumpCount (p.host x) counts (p.host y) = counts (p.host y) := by
      have : ¬ p.host y = p.host x := fun e => hh e.symm
      simp [bumpCount, this]
    by_cases hcap : 0 < p.per_domain_limit
    case neg => simp [selectStep, hcap, hax, hay, bumpCount_comm]
    case pos =>
      by_cases hx2 : p.per_domain_limit ≤ counts (p.host x) <;>
        by_cases hy2 : p.per_domain_limit ≤ counts (p.host y) <;>
          simp [selectStep, hcap, hx2, hy2, hax, hay, hbyx, hbxy, bumpCount_comm]

theorem selectDocuments_length_le (p : SelectParams) (m : Nat) :
    ∀ (cands docs : List String) (counts : String → Nat),
      docs.length ≤ (selectDocuments p m cands docs counts).length := by
  intro cands
  induction cands with
  | nil => intro docs counts; exact Nat.le_refl _
  | cons url rest ih =>
    intro docs counts
    rw [selectDocuments]
    split_ifs
    · exact Nat.le_refl _
    · exact ih docs counts
    · calc docs.length ≤ (docs ++ [url]).length := by simp
        _ ≤ _ := ih (docs ++ [url]) _
    · exact ih docs counts

theorem selectDocuments_mono_max (p : SelectParams) (m1 m2 : Nat)
    (h : m1 ≤ m2) :
    ∀ (cands docs : List String) (counts : String → Nat),
      (selectDocuments p m1 cands docs counts).length
        ≤ (selectDocuments p m2 cands docs counts).length := by
  intro cands
  induction cands with
  | nil => intro docs counts; exact Nat.le_refl _
  | cons url rest ih =>
    intro docs counts
    rw [selectDocuments, selectDocuments]
    by_cases hb2 : m2 ≤ docs.length
    · have hb1 : m1 ≤ docs.length := Nat.le_trans h hb2
      rw [if_pos hb1, if_pos hb2]
    · by_cases hb1 : m1 ≤ docs.length
      · rw [if_pos hb1, if_neg hb2]
        split_ifs
        · exact selectDocuments_length_le p m2 rest docs counts
        · calc docs.length ≤ (docs ++ [url]).length := by simp
            _ ≤ _ := selectDocuments_length_le p m2 rest (docs ++ [url]) _
        · exact selectDocuments_length_le p m2 rest docs counts
      · rw [if_neg hb1, if_neg hb2]
        split_ifs
        · exact ih docs counts
        · exact ih (docs ++ [url]) _
        · exact ih docs counts

theorem selectDocuments_append_le (p : SelectParams) (m : Nat) :
    ∀ (cands extra docs : List String) (counts : String → Nat),
      (selectDocuments p m cands docs counts).length
        ≤ (selectDocuments p m (cands ++ extra) docs counts).length := by
  intro cands
  induction cands with
  | nil =>
    intro extra docs counts
    exact selectDocuments_length_le p m extra docs counts
  | cons url rest ih =>
    intro extra docs counts
    rw [List.cons_append, selectDocuments, selectDocuments]
    split_ifs
    · exact Nat.le_refl _
    · exact ih extra docs counts
    · exact ih extra (docs ++ [url]) _
    · exact ih extra docs counts

theorem should_scan_pages_mono (d : DiscoveryConfig) (m1 m2 : Nat)
    (h : m1 ≤ m2) (h1 : should_scan_pages d m1 = true) :
    should_scan_pages d m2 = true := by
  simp only [should_scan_pages, Bool.and_eq_true, Bool.not_eq_true,
    Bool.not_eq_true', decide_eq_false_iff_not, Bool.and_eq_false_iff,
    decide_eq_true_eq] at h1 ⊢
  rcases h1 with ⟨hso, hrest⟩
  refine ⟨hso, ?_⟩
  rcases hrest with hps | hlen
  · exact Or.inl hps
  · exact Or.inr (fun hle => hlen (Nat.le_trans h hle))

/-- The accepted-candidate count is invariant under permutation of the
candidate list: the order a Python set happens to enumerate
`file_candidates` in cannot change how many documents are returned. -/
theorem selectLen_perm (p : SelectParams) (m : Nat) :
    ∀ {l1 l2 : List String}, l1.Perm l2 →
      ∀ (L : Nat) (counts : String → Nat),
        selectLen p m l1 L counts = selectLen p m l2 L counts := by
  intro l1 l2 hperm
  induction hperm with
  | nil => intro L counts; rfl
  | cons x hrest ih =>
    intro L counts
    rw [selectLen_cons, selectLen_cons]
    by_cases hm : m ≤ L
    · rw [if_pos hm, if_pos hm]
    · rw [if_neg hm, if_neg hm]
      exact ih _ _
  | swap x y l =>
    intro L counts
    rw [selectLen_cons p m y (x :: l) L counts,
      selectLen_cons p m x (y :: l) L counts]
    by_cases hm : m ≤ L
    · rw [if_pos hm, if_pos hm]
    · rw [if_neg hm, if_neg hm, selectLen_cons p m x l,
        selectLen_cons p m y l, ← selectStep_comm]
      rcases selectStep_cases p y L counts with hy | hy <;>
        rcases selectStep_cases p x L counts with hx | hx
      · -- neither changes the state
        simp [hy, hx]
      · -- x accepted, y a no-op
        have hT : selectStep p y (selectStep p x L counts).1
            (selectStep p x L counts).2
            = (L + 1, bumpCount (p.host x) counts) := by
          rw [← selectStep_comm, hy]
          exact hx
        rw [hT, hy, hx]
        dsimp only
        by_cases hm1 : m ≤ L + 1
        · rw [if_neg hm, if_pos hm1]
          exact selectLen_of_ge p m l (L + 1) _ hm1
        · rw [if_neg hm, if_neg hm1]
      · -- y accepted, x a no-op
        have hT : selectStep p y (selectStep p x L counts).1
            (selectStep p x L counts).2
            = (L + 1, bumpCount (p.host y) counts) := by
          rw [hx]
          exact hy
        rw [hT, hy, hx]
        dsimp only
        by_cases hm1 : m ≤ L + 1
        · rw [if_pos hm1, if_neg hm]
          exact (selectLen_of_ge p m l (L + 1) _ hm1).symm
        · rw [if_neg hm1, if_neg hm]
      · -- both accepted: both sides gate on the same count L + 1 and
        -- continue from the same commuted state
        rw [hy, hx]
  | trans _ _ ih1 ih2 =>
    intro L counts
    exact (ih1 L counts).trans (ih2 L counts)

/-- Permutation invariance of the returned document count. -/
theorem selectDocuments_length_perm (p : SelectParams) (m : Nat)
    (l1 l2 docs : List String) (counts : String → Nat) (h : l1.Perm l2) :
    (selectDocuments p m l1 docs counts).length
      = (selectDocuments p m l2 docs counts).length := by
  rw [selectDocuments_length_eq_selectLen, selectDocuments_length_eq_selectLen]
  exact selectLen_perm p m h _ _

/-- C7: for a fixed candidate environment (targets, network responses and
validation-cache state fixed, all other limits fixed), increasing
`limits.max_documents` never decreases the number of document candidates
`discover_documents` returns — for the canonical candidate order, and for
any enumeration orders `l1`, `l2` the two calls' candidate sets happen to
be iterated in (`file_candidates` is a Python set). -/
theorem discover_documents_monotone (d : DiscoveryConfig) (m1 m2 : Nat)
    (h : m1 ≤ m2) (l1 l2 : List String)
    (hp1 : l1.Perm (fileCandidates d m1)) (hp2 : l2.Perm (fileCandidates d m2)) :
    (discovered_documents d m1).length ≤ (discovered_documents d m2).length ∧
    (selectDocuments d.p m1 l1 [] (fun _ => 0)).length
      ≤ (selectDocuments d.p m2 l2 [] (fun _ => 0)).length := by
  have hcanon :
      (discovered_documents d m1).length ≤ (discovered_documents d m2).length := by
    unfold discovered_documents fileCandidates
    by_cases h1 : should_scan_pages d m1 = true
    · have h2 := should_scan_pages_mono d m1 m2 h h1
      rw [if_pos h1, if_pos h2]
      exact selectDocuments_mono_max d.p m1 m2 h _ [] _
    · by_cases h2 : should_scan_pages d m2 = true
      · rw [if_neg h1, if_pos h2]
        calc (selectDocuments d.p m1 d.baseCandidates [] fun _ => 0).length
            ≤ (selectDocuments d.p m2 d.baseCandidates [] fun _ => 0).length :=
              selectDocuments_mono_max d.p m1 m2 h _ [] _
          _ ≤ _ := selectDocuments_append_le d.p m2 d.baseCandidates d.scanExtras [] _
      · rw [if_neg h1, if_neg h2]
        exact selectDocuments_mono_max d.p m1 m2 h _ [] _
  refine ⟨hcanon, ?_⟩
  rw [selectDocuments_length_perm d.p m1 l1 (fileCandidates d m1) [] _ hp1,
    selectDocuments_length_perm d.p m2 l2 (fileCandidates d m2) [] _ hp2]
  exact hcanon

/-- A concrete discovery environment: three sitemap candidates, all
accepted, one host, no per-domain cap. -/
def exDiscovery : DiscoveryConfig :=
  { p := { accepts := fun _ => true, host := fun _ => "h", per_domain_limit := 0 }
    baseCandidates := ["a", "b", "c"]
    scanExtras := []
    prefer_sitemaps := true
    sitemap_only := false }

/-- Witness for C7: raising `max_documents` from 1 to 2 raises the
returned count from 1 to 2 on `exDiscovery`, also when the second call
enumerates its candidate set in a different order. -/
theorem discover_documents_monotone_witness :
    ((1 : Nat) ≤ 2 ∧
     List.Perm ["a", "b", "c"] (fileCandidates exDiscovery 1) ∧
     List.Perm ["b", "c", "a"] (fileCandidates exDiscovery 2)) ∧
    (discovered_documents exDiscovery 1).length = 1 ∧
    (discovered_documents exDiscovery 2).length = 2 ∧
    ((discovered_documents exDiscovery 1).length
       ≤ (discovered_documents exDiscovery 2).length ∧
     (selectDocuments exDiscovery.p 1 ["a", "b", "c"] [] (fun _ => 0)).length
       ≤ (selectDocuments exDiscovery.p 2 ["b", "c", "a"] [] (fun _ => 0)).length) :=
  ⟨⟨by decide, by decide, by decide⟩, rfl, rfl,
   discover_documents_monotone exDiscovery 1 2 (by decide)
     ["a", "b", "c"] ["b", "c", "a"] (by decide) (by decide)⟩

/-! Helper lemmas for the event bus (C9). -/

theorem lookup_assocUpdate {α : Type} (k : String) (f : α → α) :
    ∀ l : List (String × α), lookup (assocUpdate k f l) k = (lookup l k).map f := by
  intro l
  induction l with
  | nil => rfl
  | cons p rest ih =>
    obtain ⟨k', v⟩ := p
    by_cases hk : k' = k
    · simp [assocUpdate, lookup, hk]
    · have hbeq : (k' == k) = false := by simpa using hk
      simp only [assocUpdate, hbeq, Bool.false_eq_true, if_false]
      simpa [lookup, hbeq] using ih

theorem lookup_append_single {α : Type} (k : String) (v : α) :
    ∀ l : List (String × α), lookup l k = none →
      lookup (l ++ [(k, v)]) k = some v := by
  intro l
  induction l with
  | nil => intro _; simp [lookup]
  | cons p rest ih =>
    obtain ⟨k', v'⟩ := p
    intro h
    by_cases hk : k' = k
    · simp [lookup, hk] at h
    · have hbeq : (k' == k) = false := by simpa using hk
      simp only [lookup, List.find?, hbeq] at h ⊢
      exact ih h

theorem broadcast_keeps_histories (b : EventBus) (c : String) :
    (broadcast_to_websockets b c).1.histories = b.histories := by
  unfold broadcast_to_websockets
  cases lookup b.websockets c <;> rfl

theorem broadcast_keeps_manager (b : EventBus) (c : String) :
    (broadcast_to_websockets b c).1.has_ws_manager = b.has_ws_manager := by
  unfold broadcast_to_websockets
  cases lookup b.websockets c <;> rfl

theorem invokeAll_mem (cbs : List Callback) (cb : Callback) (h : cb ∈ cbs) :
    BusAction.invoked cb.id cb.throws ∈ invokeAll cbs := by
  unfold invokeAll
  refine List.mem_map.mpr ⟨cb, h, ?_⟩
  cases hcb : cb.throws <;> simp [runCallback, hcb]

/-- C9: `publish` appends the event to the job's history (creating it on
first use) and executes, in order, every registered per-job subscriber,
then every global subscriber, then the WebSocket sends for the job, then
the manager broadcast; a raising callback is recorded as raised but does
not prevent any other callback from being invoked nor the WebSocket
broadcast from occurring — every subscriber's invocation and every
registered socket's send appear in the action trace whatever the
`throws` flags are. -/
theorem publish_appends_and_invokes_all (bus : EventBus) (ev : CrawlEvent) :
    lookup (publish bus ev).1.histories ev.crawl_id
      = some (historyAdd
          (match lookup bus.histories ev.crawl_id with
           | some h => h
           | none => []) ev) ∧
    (publish bus ev).2
      = invokeAll (subsFor bus ev.crawl_id)
        ++ invokeAll bus.global_subscribers
        ++ (socksFor bus ev.crawl_id).map (fun w => BusAction.wsSent w.id w.alive)
        ++ (if bus.has_ws_manager then [BusAction.wsManagerBroadcast] else []) ∧
    (∀ cb ∈ subsFor bus ev.crawl_id,
      BusAction.invoked cb.id cb.throws ∈ (publish bus ev).2) ∧
    (∀ cb ∈ bus.global_subscribers,
      BusAction.invoked cb.id cb.throws ∈ (publish bus ev).2) ∧
    (∀ w ∈ socksFor bus ev.crawl_id,
      BusAction.wsSent w.id w.alive ∈ (publish bus ev).2) := by
  have htrace : (publish bus ev).2
      = invokeAll (subsFor bus ev.crawl_id)
        ++ invokeAll bus.global_subscribers
        ++ (socksFor bus ev.crawl_id).map (fun w => BusAction.wsSent w.id w.alive)
        ++ (if bus.has_ws_manager then [BusAction.wsManagerBroadcast] else []) := by
    unfold publish
    cases hh : lookup bus.histories ev.crawl_id <;>
      cases hw : lookup bus.websockets ev.crawl_id <;>
        simp [broadcast_to_websockets, subsFor, socksFor, hh, hw]
  refine ⟨?_, htrace, ?_, ?_, ?_⟩
  · show lookup (publish bus ev).1.histories ev.crawl_id = _
    unfold publish
    cases hh : lookup bus.histories ev.crawl_id
    · simp only [broadcast_keeps_histories]
      rw [lookup_append_single ev.crawl_id _ bus.histories hh]
    · simp only [broadcast_keeps_histories]
      rw [lookup_assocUpdate, hh]
      rfl
  · intro cb hcb
    rw [htrace]
    exact List.mem_append_left _ (List.mem_append_left _
      (List.mem_append_left _ (invokeAll_mem _ cb hcb)))
  · intro cb hcb
    rw [htrace]
    exact List.mem_append_left _ (List.mem_append_left _
      (List.mem_append_right _ (invokeAll_mem _ cb hcb)))
  · intro w hw
    rw [htrace]
    exact List.mem_append_left _ (List.mem_append_right _
      (List.mem_map_of_mem _ hw))

/-- Witness for C9: a bus with a throwing per-job subscriber followed by a
healthy one, one global subscriber and one live socket — all three
callbacks are invoked and the socket send still happens. -/
theorem publish_appends_and_invokes_all_witness :
    (Callback.mk 1 true ∈ subsFor
      (EventBus.mk [] [("j", [Callback.mk 1 true, Callback.mk 2 false])]
        [Callback.mk 3 false] [("j", [WebSock.mk 7 true])] true) "j" ∧
     BusAction.invoked 1 true ∈
      (publish
        (EventBus.mk [] [("j", [Callback.mk 1 true, Callback.mk 2 false])]
          [Callback.mk 3 false] [("j", [WebSock.mk 7 true])] true)
        (CrawlEvent.mk "e" "j" .state_change 0)).2) ∧
    (Callback.mk 2 false ∈ subsFor
      (EventBus.mk [] [("j", [Callback.mk 1 true, Callback.mk 2 false])]
        [Callback.mk 3 false] [("j", [WebSock.mk 7 true])] true) "j" ∧
     BusAction.invoked 2 false ∈
      (publish
        (EventBus.mk [] [("j", [Callback.mk 1 true, Callback.mk 2 false])]
          [Callback.mk 3 false] [("j", [WebSock.mk 7 true])] true)
        (CrawlEvent.mk "e" "j" .state_change 0)).2) ∧
    (WebSock.mk 7 true ∈ socksFor
      (EventBus.mk [] [("j", [Callback.mk 1 true, Callback.mk 2 false])]
        [Callback.mk 3 false] [("j", [WebSock.mk 7 true])] true) "j" ∧
     BusAction.wsSent 7 true ∈
      (publish
        (EventBus.mk [] [("j", [Callback.mk 1 true, Callback.mk 2 false])]
          [Callback.mk 3 false] [("j", [WebSock.mk 7 true])] true)
        (CrawlEvent.mk "e" "j" .state_change 0)).2) :=
  ⟨⟨by decide,
    (publish_appends_and_invokes_all
      (EventBus.mk [] [("j", [Callback.mk 1 true, Callback.mk 2 false])]
        [Callback.mk 3 false] [("j", [WebSock.mk 7 true])] true)
      (CrawlEvent.mk "e" "j" .state_change 0)).2.2.1
      (Callback.mk 1 true) (by decide)⟩,
   ⟨by decide,
    (publish_appends_and_invokes_all
      (EventBus.mk [] [("j", [Callback.mk 1 true, Callback.mk 2 false])]
        [Callback.mk 3 false] [("j", [WebSock.mk 7 true])] true)
      (CrawlEvent.mk "e" "j" .state_change 0)).2.2.1
      (Callback.mk 2 false) (by decide)⟩,
   ⟨by decide,
    (publish_appends_and_invokes_all
      (EventBus.mk [] [("j", [Callback.mk 1 true, Callback.mk 2 false])]
        [Callback.mk 3 false] [("j", [WebSock.mk 7 true])] true)
      (CrawlEvent.mk "e" "j" .state_change 0)).2.2.2.2
      (WebSock.mk 7 true) (by decide)⟩⟩

/-! Helper lemmas for checkpoint traces (C8). -/

theorem applyCkptOps_append (c : String) :
    ∀ (ops1 ops2 : List CkptOp) (l : List CheckpointMeta),
      applyCkptOps c (ops1 ++ ops2) l
        = applyCkptOps c ops2 (applyCkptOps c ops1 l) := by
  intro ops1
  induction ops1 with
  | nil => intro ops2 l; rfl
  | cons op rest ih =>
    intro ops2 l
    cases op <;> simp [applyCkptOps, ih]

theorem createdCheckpoints_succ (c : String) (n : Nat) :
    createdCheckpoints c (n + 1)
      = (create_checkpoint c (createdCheckpoints c n)).2 := by
  rw [createdCheckpoints, List.replicate_succ', applyCkptOps_append]
  rfl

/-- The concrete trace create, create, delete first, create on one crawl. -/
def ckptReuseTrace : List CheckpointMeta :=
  applyCkptOps "c" [.create, .create, .delete "c_ckpt_0", .create] []

/-- C8 counterexample: after create, create, delete of checkpoint 0 and
another create, the job holds two distinct checkpoints that share both
checkpoint number `1` and checkpoint id `"c_ckpt_1"` — `create_checkpoint`
numbers by current list length, so a delete lets the next create reuse a
live number. -/
theorem checkpoint_number_reused_after_delete :
    ckptReuseTrace.map (fun c => (c.checkpoint_id, c.checkpoint_number))
      = [("c_ckpt_1", 1), ("c_ckpt_1", 1)] ∧
    ¬ (ckptReuseTrace.map (fun c => c.checkpoint_number)).Nodup ∧
    ¬ (ckptReuseTrace.map (fun c => c.checkpoint_id)).Nodup :=
  ⟨rfl, by decide, by decide⟩

/-- C8 (amended): every call to `create_checkpoint` assigns a checkpoint
number equal to the count of checkpoints currently stored for that job
(and an id embedding that number); in histories consisting solely of
`create_checkpoint` calls the numbers for a job are exactly `0..n-1`, so
no two checkpoints of the same job share a number or an id. Interleaving
delete/prune operations can void this: a later create can reuse the number
and id of a surviving checkpoint. -/
theorem create_checkpoint_sequential_numbers :
    (∀ (crawl_id : String) (l : List CheckpointMeta),
      (create_checkpoint crawl_id l).2.map (fun c => c.checkpoint_number)
        = l.map (fun c => c.checkpoint_number) ++ [l.length] ∧
      (create_checkpoint crawl_id l).2.map (fun c => c.checkpoint_id)
        = l.map (fun c => c.checkpoint_id)
          ++ [crawl_id ++ "_ckpt_" ++ toString l.length]) ∧
    (∀ (crawl_id : String) (n : Nat),
      (createdCheckpoints crawl_id n).map (fun c => c.checkpoint_number)
        = List.range n ∧
      (createdCheckpoints crawl_id n).map (fun c => c.checkpoint_id)
        = (List.range n).map (fun k => crawl_id ++ "_ckpt_" ++ toString k) ∧
      ((createdCheckpoints crawl_id n).map (fun c => c.checkpoint_number)).Nodup ∧
      ((createdCheckpoints crawl_id n).map (fun c => c.checkpoint_id)).Nodup) := by
  have key : ∀ (crawl_id : String) (n : Nat),
      (createdCheckpoints crawl_id n).map (fun c => c.checkpoint_number)
        = List.range n ∧
      (createdCheckpoints crawl_id n).map (fun c => c.checkpoint_id)
        = (List.range n).map (fun k => crawl_id ++ "_ckpt_" ++ toString k) := by
    intro crawl_id n
    induction n with
    | zero => exact ⟨rfl, rfl⟩
    | succ k ih =>
      have hlen : (createdCheckpoints crawl_id k).length = k := by
        have := congrArg List.length ih.1
        simpa using this
      rw [createdCheckpoints_succ]
      constructor
      · simp [create_checkpoint, ih.1, List.range_succ, hlen]
      · simp [create_checkpoint, ih.2, List.range_succ, hlen]
  refine ⟨?_, ?_⟩
  · intro crawl_id l
    constructor <;> simp [create_checkpoint]
  · intro crawl_id n
    refine ⟨(key crawl_id n).1, (key crawl_id n).2, ?_, ?_⟩
    · rw [(key crawl_id n).1]
      exact List.nodup_range n
    · rw [(key crawl_id n).2]
      refine (List.nodup_range n).map ?_
      intro a b hab
      exact natToString_inj a b
        (string_append_left_cancel (crawl_id ++ "_ckpt_") _ _ hab)

/-- Witness for C4's theorem: second transition of a job whose first
transition happened at time `3`, taken at time `10`, records duration `7`;
and a fresh job's first transition records no duration. -/
theorem transition_duration_semantics_witness :
    (CrawlState.crawling ∈ VALID_TRANSITIONS
      (CrawlStateData.mk "job" .initializing none 0 (some 3) none none
        [{ from_state := .queued, to_state := .initializing, timestamp := 3,
           duration_seconds := none }] 0).current_state) ∧
    ((transition
        (CrawlStateData.mk "job" .initializing none 0 (some 3) none none
          [{ from_state := .queued, to_state := .initializing, timestamp := 3,
             duration_seconds := none }] 0)
        .crawling 10).1.state_history.getLast?.map (fun t => t.duration_seconds))
      = some (some 7) :=
  ⟨by decide,
   by
    have h := (transition_duration_semantics
      (CrawlStateData.mk "job" .initializing none 0 (some 3) none none
        [{ from_state := .queued, to_state := .initializing, timestamp := 3,
           duration_seconds := none }] 0)
      .crawling 10 (by decide)).2.1
      { from_state := .queued, to_state := .initializing, timestamp := 3,
        duration_seconds := none } rfl
    simpa using h⟩

end GenCrawl
